import Mathlib

/-!
Shallow embedding of the gak-cms-backend access-control core.

The repository is a Hono REST backend over Prisma/PostgreSQL and Supabase
storage.  The parts the claims are about are embedded here:

* `src/src/api/reflections.ts` — the reflections CRUD handlers with their
  authorization and visibility checks, modelled as pure functions over an
  explicit store (`List Reflection`).  The database (Prisma) is modelled as
  that list, with the `@unique` constraints on `id` and `slug` from
  `src/prisma/schema.prisma` checked at insertion, and `findUnique` as a
  first-match lookup by id.  Timestamps are modelled as `Nat`; `crypto.randomUUID`
  is modelled by passing the generated id as an argument.
* `src/src/hooks/useSlug.ts` — `createSlug`, embedded character by character.
* `src/src/api/albums.ts` (the current version, using `storageHelpers`) and
  `src/src/lib/supabase.ts` — album creation and deletion, with storage
  modelled as an oracle `String → Except String String` for uploads
  (path to error or public URL) and `String → Except String Unit` for removals.

The authenticated user of a request (`c.get("user")`, nullable) is modelled
as `Option String` carrying the user id; `none` is an anonymous principal.
-/

namespace GakCms

/-- `enum PublicationStatus { DRAFT PUBLISHED }` from `prisma/schema.prisma`. -/
inductive PublicationStatus where
  | DRAFT
  | PUBLISHED
deriving DecidableEq

/-- How Prisma serialises a `PublicationStatus` value, used when the list
handler compares a stored status against the raw `status` query string. -/
def statusToString : PublicationStatus → String
  | .DRAFT => "DRAFT"
  | .PUBLISHED => "PUBLISHED"

/-- A row of the `reflections` table (`model Reflection` in
`prisma/schema.prisma`).  Tags are kept as the list of tag ids connected
through `ReflectionTag`; `createdAt`/`updatedAt` are bookkeeping the claims
never mention and are omitted. -/
structure Reflection where
  id : String
  title : String
  content : String
  publishDate : Option Nat
  slug : String
  status : PublicationStatus
  authorId : String
  featuredImageId : Option String
  tags : List String
deriving DecidableEq

/-- An HTTP response as produced by `c.json(body, code)`: either a success
with a typed body or an error with the literal error message of the handler. -/
inductive ApiResponse (α : Type) where
  | ok (code : Nat) (body : α)
  | err (code : Nat) (msg : String)
deriving DecidableEq

/-- The HTTP status code of a response. -/
def ApiResponse.code : ApiResponse α → Nat
  | .ok c _ => c
  | .err c _ => c

/-! ### Slug generation (`src/src/hooks/useSlug.ts`, `createSlug`) -/

/-- JavaScript `\w`: ASCII letters, digits and underscore. -/
def isWordChar (c : Char) : Bool :=
  (c ≥ 'a' ∧ c ≤ 'z') ∨ (c ≥ 'A' ∧ c ≤ 'Z') ∨ (c ≥ '0' ∧ c ≤ '9') ∨ c = '_'

/-- Replace every maximal run of characters satisfying `p` by the single
character `rep`.  `inRun` records whether the previous character was part of
such a run.  This embeds the JavaScript regex replacements `/\s+/g → "-"`
and `/\-\-+/g → "-"` (a lone hyphen is untouched by the latter, and mapping
every maximal run to one hyphen agrees with it). -/
def squashRuns (p : Char → Bool) (rep : Char) : Bool → List Char → List Char
  | _, [] => []
  | inRun, c :: cs =>
    if p c then
      (if inRun then [] else [rep]) ++ squashRuns p rep true cs
    else
      c :: squashRuns p rep false cs

/-- `createSlug` from `src/src/hooks/useSlug.ts`: lower-case, whitespace runs
to hyphens, drop non-word non-hyphen characters, collapse hyphen runs, trim
hyphens at both ends. -/
def createSlug (text : String) : String :=
  let cs := text.data.map Char.toLower
  let cs := squashRuns (fun c => c.isWhitespace) '-' false cs
  let cs := cs.filter (fun c => isWordChar c || c == '-')
  let cs := squashRuns (fun c => c == '-') '-' false cs
  let cs := cs.dropWhile (fun c => c == '-')
  let cs := (cs.reverse.dropWhile (fun c => c == '-')).reverse
  String.mk cs

/-! ### Reflections store primitives -/

/-- `prisma.<model>.findUnique({ where: { id } })` over a list store: the
first record whose key equals `k`. -/
def findBy (key : α → String) : List α → String → Option α
  | [], _ => none
  | x :: rest, k => if key x == k then some x else findBy key rest k

/-- `findUnique` on the reflections table. -/
def findUnique (store : List Reflection) (id : String) : Option Reflection :=
  findBy Reflection.id store id

/-- `prisma.reflection.update({ where: { id }, data })` over a list store:
rewrite the record(s) whose id matches. -/
def mapUpdate (key : α → String) (k : String) (f : α → α) (l : List α) : List α :=
  l.map (fun x => if key x == k then f x else x)

/-! ### Create (`reflections.post("/create")`) -/

/-- The body accepted by `createReflectionSchema` (zod): `title`/`content`
required non-empty, `slug` optional non-empty, `status` defaulting to DRAFT,
optional `featuredImageId`, `tags`, `publishDate`.  There is no `authorId`
field: the handler always takes the author from the session user. -/
structure CreateReflectionInput where
  title : String
  content : String
  slug : Option String := none
  status : PublicationStatus := .DRAFT
  featuredImageId : Option String := none
  tags : Option (List String) := none
  publishDate : Option Nat := none
deriving DecidableEq

/-- The zod validation of `createReflectionSchema`: `min(1)` on `title`,
`content` and (when supplied) `slug`. -/
def createInputValid (input : CreateReflectionInput) : Bool :=
  input.title.length != 0 && input.content.length != 0 && input.slug != some ""

/-- The create handler.  `requireAuth` turns an anonymous caller into 401;
a zod failure or a database unique-constraint violation (on `id` or `slug`,
both `@unique` in the schema) is caught and mapped to 400; otherwise the row
is inserted with `slug: validated.slug || createSlug(validated.title)` and
`authorId: user.id`.  `newId` stands for `crypto.randomUUID()`.  Returns the
store after the request together with the response. -/
def createReflection (store : List Reflection) (user : Option String)
    (input : CreateReflectionInput) (newId : String) :
    List Reflection × ApiResponse Reflection :=
  match user with
  | none => (store, .err 401 "Unauthorized")
  | some uid =>
    if !createInputValid input then
      (store, .err 400 "Failed to create reflection")
    else
      let slug := match input.slug with
        | some s => s
        | none => createSlug input.title
      if store.any (fun r => r.id == newId) || store.any (fun r => r.slug == slug) then
        (store, .err 400 "Failed to create reflection")
      else
        let r : Reflection :=
          { id := newId
            title := input.title
            content := input.content
            publishDate := input.publishDate
            slug := slug
            status := input.status
            authorId := uid
            featuredImageId := input.featuredImageId
            tags := input.tags.getD [] }
        (store ++ [r], .ok 201 r)

/-! ### List (`reflections.get("/get")`) -/

/-- The Prisma `where` object built by the list handler.  Both fields hold
the raw strings the handler puts there (the handler casts the query string
rather than parsing it). -/
structure ListWhere where
  status : Option String
  authorId : Option String
deriving DecidableEq

/-- The spread-built `where` of the list handler, in source order:
1. `...(status && { status })` — skipped for an absent or empty query value;
2. `...(authorId && { authorId })` — likewise;
3. `...(!user && { status: "PUBLISHED" })` — anonymous callers are forced to
   the PUBLISHED filter, overriding any requested status;
4. `...(status === "DRAFT" && (!user || user.id !== authorId) && { authorId: "none" })`
   — a DRAFT request by anyone other than the requested author is forced to
   the sentinel author id `"none"`. -/
def buildWhere (status authorId user : Option String) : ListWhere :=
  let wStatus0 : Option String := match status with
    | some s => if s.length == 0 then none else some s
    | none => none
  let wAuthor0 : Option String := match authorId with
    | some a => if a.length == 0 then none else some a
    | none => none
  let wStatus1 : Option String := match user with
    | none => some "PUBLISHED"
    | some _ => wStatus0
  let forceNone : Bool := status == some "DRAFT" &&
    (match user with
     | none => true
     | some uid => match authorId with
       | some a => uid != a
       | none => true)
  let wAuthor1 : Option String := if forceNone then some "none" else wAuthor0
  { status := wStatus1, authorId := wAuthor1 }

/-- Whether a stored reflection matches a `where` object under Prisma's
equality filters. -/
def matchesWhere (w : ListWhere) (r : Reflection) : Bool :=
  (match w.status with
   | some s => statusToString r.status == s
   | none => true) &&
  (match w.authorId with
   | some a => r.authorId == a
   | none => true)

/-- The list handler: `findMany({ where })` with the spread-built filter. -/
def listReflections (store : List Reflection) (status authorId user : Option String) :
    List Reflection :=
  store.filter (matchesWhere (buildWhere status authorId user))

/-! ### Get single (`reflections.get("/get/:id")`) -/

/-- The single-fetch handler: a missing row is 404 `"Reflection not found"`;
a DRAFT row whose author is not the caller is 404 `"Not found"`; anything
else is returned with 200. -/
def getReflectionById (store : List Reflection) (user : Option String) (id : String) :
    ApiResponse Reflection :=
  match findUnique store id with
  | none => .err 404 "Reflection not found"
  | some r =>
    if r.status == .DRAFT &&
        (match user with
         | none => true
         | some uid => uid != r.authorId) then
      .err 404 "Not found"
    else
      .ok 200 r

/-! ### Update (`reflections.put("/update/:id")`) -/

/-- The body accepted by `createReflectionSchema.partial()`: every field
optional; an absent field (`none`) is left out of the Prisma `data` object
and the stored value is kept.  zod's `.partial()` wraps each field in
`.optional()`, so the DRAFT default of `status` does not fire for an absent
field. -/
structure ReflectionPatch where
  title : Option String := none
  content : Option String := none
  slug : Option String := none
  status : Option PublicationStatus := none
  featuredImageId : Option String := none
  tags : Option (List String) := none
  publishDate : Option Nat := none
deriving DecidableEq

/-- The zod validation of the patched schema: `min(1)` still applies to any
field that is supplied. -/
def patchValid (p : ReflectionPatch) : Bool :=
  p.title != some "" && p.content != some "" && p.slug != some ""

/-- Prisma `update` data spread: supplied fields replace, absent fields are
kept.  The patch carries no `id` and no `authorId`, mirroring the schema. -/
def applyPatch (r : Reflection) (p : ReflectionPatch) : Reflection :=
  { r with
    title := p.title.getD r.title
    content := p.content.getD r.content
    slug := p.slug.getD r.slug
    status := p.status.getD r.status
    featuredImageId := match p.featuredImageId with
      | some f => some f
      | none => r.featuredImageId
    tags := p.tags.getD r.tags
    publishDate := match p.publishDate with
      | some d => some d
      | none => r.publishDate }

/-- The update handler, in source order: `requireAuth` (401), then
`findUnique ... select { authorId }` (404 when absent), then the ownership
comparison against the persisted `authorId` (403), then zod validation and
the Prisma update, whose unique-`slug` violation is caught as 400. -/
def updateReflection (store : List Reflection) (user : Option String) (id : String)
    (p : ReflectionPatch) : List Reflection × ApiResponse Reflection :=
  match user with
  | none => (store, .err 401 "Unauthorized")
  | some uid =>
    match findUnique store id with
    | none => (store, .err 404 "Reflection not found")
    | some existing =>
      if existing.authorId != uid then
        (store, .err 403 "Unauthorized")
      else if !patchValid p then
        (store, .err 400 "Failed to update reflection")
      else if (match p.slug with
               | some s => store.any (fun r => r.slug == s && r.id != id)
               | none => false) then
        (store, .err 400 "Failed to update reflection")
      else
        (mapUpdate Reflection.id id (fun r => applyPatch r p) store,
         .ok 200 (applyPatch existing p))

/-! ### Delete (`reflections.delete("/delete/:id")`) -/

/-- The delete handler: 401 / 404 / 403 exactly as update, then
`prisma.reflection.delete({ where: { id } })` and `{ success: true }`. -/
def deleteReflection (store : List Reflection) (user : Option String) (id : String) :
    List Reflection × ApiResponse Unit :=
  match user with
  | none => (store, .err 401 "Unauthorized")
  | some uid =>
    match findUnique store id with
    | none => (store, .err 404 "Reflection not found")
    | some existing =>
      if existing.authorId != uid then
        (store, .err 403 "Unauthorized")
      else
        (store.filter (fun r => r.id != id), .ok 200 ())

/-! ### Publish (`reflections.patch("/publish/:id")`) -/

/-- The publish handler: 401 / 404 / 403 exactly as update, then an update
that sets `status: "PUBLISHED"` and `publishDate: new Date()` unconditionally.
`now` stands for the wall clock at the update. -/
def publishReflection (store : List Reflection) (user : Option String) (id : String)
    (now : Nat) : List Reflection × ApiResponse Reflection :=
  match user with
  | none => (store, .err 401 "Unauthorized")
  | some uid =>
    match findUnique store id with
    | none => (store, .err 404 "Reflection not found")
    | some existing =>
      if existing.authorId != uid then
        (store, .err 403 "Unauthorized")
      else
        (mapUpdate Reflection.id id
           (fun r => { r with status := .PUBLISHED, publishDate := some now }) store,
         .ok 200 { existing with status := .PUBLISHED, publishDate := some now })

/-! ### Albums (`src/src/api/albums.ts`, current version, and
`src/src/lib/supabase.ts` `storageHelpers`) -/

/-- Split a list of characters at a single-character separator, as JavaScript
`String.prototype.split` does with a one-character separator string. -/
def splitSegsAux (sep : Char) : List Char → List Char → List (List Char)
  | [], cur => [cur.reverse]
  | c :: cs, cur =>
    if c == sep then cur.reverse :: splitSegsAux sep cs []
    else splitSegsAux sep cs (c :: cur)

/-- `url.split(sep).pop()` for a one-character separator: the last segment
(the whole string when the separator does not occur, the empty string when
the string ends with the separator). -/
def lastSegAfter (sep : Char) (s : String) : String :=
  String.mk (((splitSegsAux sep s.data []).getLast?).getD [])

/-- `image.url.split("/").pop()` in the album delete handlers. -/
def lastSegment (url : String) : String := lastSegAfter '/' url

/-- `file.name.split(".").pop()` in the album create handler. -/
def fileExt (name : String) : String := lastSegAfter '.' name

/-- `Except.isOk = false`, used to state that a storage call failed. -/
def isErr : Except String α → Bool
  | .error _ => true
  | .ok _ => false

/-- One image of an album create request: the multipart `File` (its `name`
and `size`) paired positionally with its entry of `albumData.images`
(`alt`, `caption`, `width`, `height`, `size`). -/
structure ImagePayload where
  name : String
  fsize : Nat
  alt : Option String := none
  caption : Option String := none
  width : Option Nat := none
  height : Option Nat := none
  msize : Option Nat := none
deriving DecidableEq

/-- A row of the `images` table as written by the album handlers. -/
structure ImageRecord where
  id : String
  url : String
  alt : String
  caption : Option String
  width : Option Nat
  height : Option Nat
  size : Nat
  albumId : String
  userId : String
deriving DecidableEq

/-- A row of the `albums` table (only the fields the claims touch). -/
structure AlbumRecord where
  id : String
  name : String
  uploadedById : String
deriving DecidableEq

/-- The storage path built for an uploaded image:
`` `${album.id}/${dbImageId}.${fileExt}` ``. -/
def imagePath (albumId dbId name : String) : String :=
  albumId ++ "/" ++ dbId ++ "." ++ fileExt name

/-- One step of the album create handler's `imagePromises`: await
`storageHelpers.uploadFile` (which throws on a storage error and otherwise
returns the public URL for the path) and only then build the
`prisma.image.create` row from the returned URL.  JavaScript `||` makes an
empty or absent metadata `alt` fall back to `file.name` and a zero or absent
metadata `size` fall back to `file.size`. -/
def processImage (upload : String → Except String String) (albumId uid : String)
    (dbId : String) (p : ImagePayload) : Except String ImageRecord :=
  match upload (imagePath albumId dbId p.name) with
  | .error e => .error e
  | .ok publicUrl =>
    .ok { id := dbId
          url := publicUrl
          alt := match p.alt with
            | some a => if a.length == 0 then p.name else a
            | none => p.name
          caption := p.caption
          width := p.width
          height := p.height
          size := match p.msize with
            | some s => if s == 0 then p.fsize else s
            | none => p.fsize
          albumId := albumId
          userId := uid }

/-- `Promise.all(imagePromises)` as observed in the response: the list of all
created image records, or the first error when any upload fails. -/
def createAlbumImages (upload : String → Except String String) (albumId uid : String) :
    List (ImagePayload × String) → Except String (List ImageRecord)
  | [] => .ok []
  | (p, dbId) :: rest =>
    match processImage upload albumId uid dbId p with
    | .error e => .error e
    | .ok img =>
      match createAlbumImages upload albumId uid rest with
      | .error e => .error e
      | .ok imgs => .ok (img :: imgs)

/-- The image rows that end up in the database: each promise of
`Promise.all` runs to completion independently, so every image whose own
upload succeeded is persisted even when a sibling upload fails. -/
def persistedImages (upload : String → Except String String) (albumId uid : String)
    (items : List (ImagePayload × String)) : List ImageRecord :=
  items.filterMap (fun it => (processImage upload albumId uid it.2 it.1).toOption)

/-- The observable outcome of an album create request: the HTTP status code,
the image rows inserted, and whether the album row was inserted. -/
structure AlbumCreateResult where
  code : Nat
  imagesInserted : List ImageRecord
  albumInserted : Bool
deriving DecidableEq

/-- The album create handler (`albums.post("/create")`): `requireAuth`
(401), `createAlbumSchema` validation of the name, the at-least-one-image
check (400), the album row insert, then the per-image upload-then-insert
pipeline; any thrown upload error is caught and mapped to 400.  `items`
pairs each file with its metadata entry and the UUID generated for its
database row; `albumId` stands for the album row's generated UUID. -/
def createAlbum (upload : String → Except String String) (user : Option String)
    (name : String) (items : List (ImagePayload × String)) (albumId : String) :
    AlbumCreateResult :=
  match user with
  | none => { code := 401, imagesInserted := [], albumInserted := false }
  | some uid =>
    if name.length == 0 then
      { code := 400, imagesInserted := [], albumInserted := false }
    else if items.isEmpty then
      { code := 400, imagesInserted := [], albumInserted := false }
    else
      match createAlbumImages upload albumId uid items with
      | .error _ =>
        { code := 400
          imagesInserted := persistedImages upload albumId uid items
          albumInserted := true }
      | .ok imgs =>
        { code := 201, imagesInserted := imgs, albumInserted := true }

/-- The storage-removal loop of the album delete handler, over the album's
images in order: skip an image whose URL has an empty last segment
(`if (filePath)`), stop at the first `storageHelpers.deleteFile` error
(which throws), and record the successfully removed paths in order.
Returns the removed paths and whether the loop ran to completion. -/
def removeLoop (remove : String → Except String Unit) (albumId : String) :
    List ImageRecord → List String × Bool
  | [] => ([], true)
  | img :: rest =>
    let fp := lastSegment img.url
    if fp.length == 0 then removeLoop remove albumId rest
    else
      match remove (albumId ++ "/" ++ fp) with
      | .error _ => ([], false)
      | .ok _ =>
        let tail := removeLoop remove albumId rest
        ((albumId ++ "/" ++ fp) :: tail.1, tail.2)

/-- The observable outcome of an album delete request: HTTP status code,
the storage paths removed (in order), and whether the database delete of
the album row (cascading to its image rows) ran. -/
structure AlbumDeleteOutcome where
  code : Nat
  removedPaths : List String
  dbDeleted : Bool
deriving DecidableEq

/-- The album delete handler (`albums.delete("/:id")`): `requireAuth`
(401), `findUnique` with images (404 when absent), the ownership comparison
against the persisted `uploadedById` (403), then the storage-removal loop —
a throwing `deleteFile` is caught as 400 before `prisma.album.delete` ever
runs — and finally the database delete and 200. -/
def deleteAlbum (remove : String → Except String Unit) (albums : List AlbumRecord)
    (images : List ImageRecord) (user : Option String) (id : String) :
    AlbumDeleteOutcome :=
  match user with
  | none => { code := 401, removedPaths := [], dbDeleted := false }
  | some uid =>
    match findBy AlbumRecord.id albums id with
    | none => { code := 404, removedPaths := [], dbDeleted := false }
    | some album =>
      if album.uploadedById != uid then
        { code := 403, removedPaths := [], dbDeleted := false }
      else
        let owned := images.filter (fun img => img.albumId == id)
        let res := removeLoop remove id owned
        if res.2 then
          { code := 200, removedPaths := res.1, dbDeleted := true }
        else
          { code := 400, removedPaths := res.1, dbDeleted := false }

/-! ### Concrete demonstration data, used by the closed witness theorems -/

/-- A DRAFT reflection owned by `"alice"`. -/
def rDraftDemo : Reflection :=
  { id := "r1", title := "t", content := "c", publishDate := none, slug := "t",
    status := .DRAFT, authorId := "alice", featuredImageId := none, tags := [] }

/-- A PUBLISHED reflection owned by `"alice"`. -/
def rPubDemo : Reflection :=
  { id := "r2", title := "t", content := "c", publishDate := some 5, slug := "u",
    status := .PUBLISHED, authorId := "alice", featuredImageId := none, tags := [] }

/-- A one-row store holding the published demo reflection. -/
def demoStore2 : List Reflection := [rPubDemo]

/-- A two-row store holding one draft and one published reflection. -/
def demoStore : List Reflection := [rDraftDemo, rPubDemo]

/-- The row the create handler inserts for a PUBLISHED create request with
title `"a"`, content `"b"` and no `publishDate`. -/
def c5Reflection : Reflection :=
  { id := "r1", title := "a", content := "b", publishDate := none, slug := "a",
    status := .PUBLISHED, authorId := "alice", featuredImageId := none, tags := [] }

/-- The row the create handler inserts for a valid create request with no
explicit slug: the slug is derived from the title. -/
def createdDraft (t c uid id : String) : Reflection :=
  { id := id, title := t, content := c, publishDate := none, slug := createSlug t,
    status := .DRAFT, authorId := uid, featuredImageId := none, tags := [] }

/-- A storage-upload oracle that fails for the second demo image and
succeeds for every other path. -/
def demoUpload : String → Except String String :=
  fun p => if p == "al1/i2.png" then .error "boom" else .ok ("https://cdn/" ++ p)

/-- Two image payloads with their generated database ids. -/
def demoItems : List (ImagePayload × String) :=
  [({ name := "a.png", fsize := 1 }, "i1"), ({ name := "b.png", fsize := 2 }, "i2")]

/-- A one-album store owned by `"alice"`. -/
def demoAlbums : List AlbumRecord := [{ id := "al1", name := "n", uploadedById := "alice" }]

/-- One image row belonging to the demo album. -/
def demoImages : List ImageRecord :=
  [{ id := "i1", url := "https://cdn/al1/f1.png", alt := "a", caption := none,
     width := none, height := none, size := 1, albumId := "al1", userId := "alice" }]

/-- A storage-removal oracle that always fails. -/
def demoRemove : String → Except String Unit := fun _ => .error "down"

/-! ### Helper lemmas -/

/-- Looking a key up after a keyed rewrite of the store: when the rewrite
preserves keys, the lookup returns the rewritten record. -/
theorem findBy_mapUpdate (key : α → String) (k : String) (f : α → α)
    (hf : ∀ x, key (f x) = key x) (l : List α) :
    findBy key (mapUpdate key k f l) k = (findBy key l k).map f := by
  induction l with
  | nil => rfl
  | cons x rest ih =>
    simp only [mapUpdate, List.map]
    cases h : key x == k with
    | true => simp [findBy, h, hf]
    | false =>
      simp only [findBy, h, Bool.false_eq_true, if_false]
      simpa [mapUpdate] using ih

/-- A non-empty string has non-zero length. -/
theorem string_ne_empty_length (s : String) (h : s ≠ "") : (s.length == 0) = false := by
  rw [beq_eq_false_iff_ne]
  intro hlen
  exact h (String.ext (List.length_eq_zero.mp hlen))

/-- When the per-image pipeline yields a record, the record's `url` is
exactly the public URL returned by that image's completed upload. -/
theorem processImage_ok_url (upload : String → Except String String)
    (albumId uid dbId : String) (p : ImagePayload) (img : ImageRecord)
    (h : processImage upload albumId uid dbId p = .ok img) :
    upload (imagePath albumId dbId p.name) = .ok img.url := by
  unfold processImage at h
  cases hu : upload (imagePath albumId dbId p.name) with
  | error e => rw [hu] at h; exact absurd h (by simp)
  | ok u =>
    rw [hu] at h
    simp only [Except.ok.injEq] at h
    subst h
    rfl

/-- Every record in a successful batch comes from some item's per-image
pipeline. -/
theorem mem_createAlbumImages_ok (upload : String → Except String String)
    (albumId uid : String) (items : List (ImagePayload × String))
    (imgs : List ImageRecord)
    (h : createAlbumImages upload albumId uid items = .ok imgs) :
    ∀ img ∈ imgs, ∃ it ∈ items, processImage upload albumId uid it.2 it.1 = .ok img := by
  induction items generalizing imgs with
  | nil =>
    simp only [createAlbumImages, Except.ok.injEq] at h
    subst h
    simp
  | cons hd tl ih =>
    obtain ⟨p, dbId⟩ := hd
    simp only [createAlbumImages] at h
    cases hp : processImage upload albumId uid dbId p with
    | error e => rw [hp] at h; exact absurd h (by simp)
    | ok img0 =>
      rw [hp] at h
      cases htl : createAlbumImages upload albumId uid tl with
      | error e => rw [htl] at h; exact absurd h (by simp)
      | ok imgs0 =>
        rw [htl] at h
        simp only [Except.ok.injEq] at h
        subst h
        intro img hmem
        rcases List.mem_cons.mp hmem with hh | hh
        · exact ⟨(p, dbId), List.mem_cons_self _ _, by rw [hp, hh]⟩
        · obtain ⟨it, hit, hok⟩ := ih imgs0 htl img hh
          exact ⟨it, List.mem_cons_of_mem _ hit, hok⟩

/-- Every persisted record comes from some item's per-image pipeline, also
when a sibling upload failed. -/
theorem mem_persistedImages (upload : String → Except String String)
    (albumId uid : String) (items : List (ImagePayload × String)) :
    ∀ img ∈ persistedImages upload albumId uid items,
      ∃ it ∈ items, processImage upload albumId uid it.2 it.1 = .ok img := by
  intro img hmem
  simp only [persistedImages, List.mem_filterMap] at hmem
  obtain ⟨it, hit, hsome⟩ := hmem
  refine ⟨it, hit, ?_⟩
  cases hp : processImage upload albumId uid it.2 it.1 with
  | error e => rw [hp] at hsome; exact absurd hsome (by simp [Except.toOption])
  | ok img0 =>
    rw [hp] at hsome
    simp only [Except.toOption, Option.some.injEq] at hsome
    rw [hsome]

/-- If any item's upload fails, the batch as a whole is an error. -/
theorem createAlbumImages_error_of_failed_upload (upload : String → Except String String)
    (albumId uid : String) (items : List (ImagePayload × String))
    (h : ∃ it ∈ items, isErr (upload (imagePath albumId it.2 it.1.name)) = true) :
    ∃ e, createAlbumImages upload albumId uid items = .error e := by
  induction items with
  | nil => simp at h
  | cons hd tl ih =>
    obtain ⟨p, dbId⟩ := hd
    simp only [createAlbumImages]
    cases hu : upload (imagePath albumId dbId p.name) with
    | error e => exact ⟨e, by simp [processImage, hu]⟩
    | ok u =>
      have hp : ∃ img0, processImage upload albumId uid dbId p = .ok img0 := by
        unfold processImage
        rw [hu]
        exact ⟨_, rfl⟩
      obtain ⟨img0, hp⟩ := hp
      obtain ⟨it, hit, herr⟩ := h
      rcases List.mem_cons.mp hit with hh | hh
      · rw [hh] at herr
        simp only at herr
        rw [hu] at herr
        exact absurd herr (by simp [isErr])
      · obtain ⟨e, he⟩ := ih ⟨it, hh, herr⟩
        refine ⟨e, ?_⟩
        rw [hp, he]

/-- When the removal loop runs to completion over images with well-formed
URLs, every image's storage object was removed successfully and its path is
recorded. -/
theorem removeLoop_complete_ok (remove : String → Except String Unit) (albumId : String)
    (imgs : List ImageRecord)
    (hseg : ∀ img ∈ imgs, lastSegment img.url ≠ "")
    (hdone : (removeLoop remove albumId imgs).2 = true) :
    ∀ img ∈ imgs,
      remove (albumId ++ "/" ++ lastSegment img.url) = .ok ()
      ∧ (albumId ++ "/" ++ lastSegment img.url) ∈ (removeLoop remove albumId imgs).1 := by
  induction imgs with
  | nil => simp
  | cons hd tl ih =>
    have hhd : lastSegment hd.url ≠ "" := hseg hd (List.mem_cons_self _ _)
    have hlen := string_ne_empty_length _ hhd
    simp only [removeLoop, hlen, Bool.false_eq_true, if_false] at hdone ⊢
    cases hr : remove (albumId ++ "/" ++ lastSegment hd.url) with
    | error e =>
      rw [hr] at hdone
      exact absurd hdone (by simp)
    | ok u =>
      rw [hr] at hdone
      simp only at hdone
      intro img hmem
      simp only
      rcases List.mem_cons.mp hmem with hh | hh
      · subst hh
        exact ⟨hr, List.mem_cons_self _ _⟩
      · have := ih (fun i hi => hseg i (List.mem_cons_of_mem _ hi)) hdone img hh
        exact ⟨this.1, List.mem_cons_of_mem _ this.2⟩

/-- When some image's storage removal fails, the removal loop does not run
to completion. -/
theorem removeLoop_fails_of_failed_remove (remove : String → Except String Unit)
    (albumId : String) (imgs : List ImageRecord)
    (hseg : ∀ img ∈ imgs, lastSegment img.url ≠ "")
    (hfail : ∃ img ∈ imgs, isErr (remove (albumId ++ "/" ++ lastSegment img.url)) = true) :
    (removeLoop remove albumId imgs).2 = false := by
  induction imgs with
  | nil => simp at hfail
  | cons hd tl ih =>
    have hhd : lastSegment hd.url ≠ "" := hseg hd (List.mem_cons_self _ _)
    have hlen := string_ne_empty_length _ hhd
    simp only [removeLoop, hlen, Bool.false_eq_true, if_false]
    cases hr : remove (albumId ++ "/" ++ lastSegment hd.url) with
    | error e => rfl
    | ok u =>
      obtain ⟨img, hmem, herr⟩ := hfail
      rcases List.mem_cons.mp hmem with hh | hh
      · subst hh
        rw [hr] at herr
        exact absurd herr (by simp [isErr])
      · simp only
        exact ih (fun i hi => hseg i (List.mem_cons_of_mem _ hi)) ⟨img, hh, herr⟩

/-! ### Claim theorems -/

/-- Claim C1, counterexample to the claim as stated: the 404 returned for a
hidden draft carries the body `"Not found"` while the 404 for a genuinely
absent reflection carries `"Reflection not found"`, so the two outcomes are
distinguishable by the response body — an anonymous fetch of the existing
draft `"r1"` and a fetch of `"r1"` against the empty store produce different
responses. -/
theorem c1_draft_vs_missing_distinguishable :
    getReflectionById [rDraftDemo] none "r1" = .err 404 "Not found"
    ∧ getReflectionById ([] : List Reflection) none "r1" = .err 404 "Reflection not found"
    ∧ getReflectionById [rDraftDemo] none "r1" ≠ getReflectionById ([] : List Reflection) none "r1" := by
  decide

/-- Claim C1 (amended): for a stored reflection `r`, if `r.status = PUBLISHED`
then fetching by id returns 200 with the resource for every principal
including anonymous; if `r.status = DRAFT` the fetch succeeds only for the
authenticated author, and every other principal (anonymous or a different
authenticated id) receives a 404 — the same status code as for an absent
resource, though with the body `"Not found"` rather than the
`"Reflection not found"` body of the absent case. -/
theorem c1_get_visibility (store : List Reflection) (r : Reflection)
    (hfind : findUnique store r.id = some r) :
    (r.status = .PUBLISHED → ∀ user, getReflectionById store user r.id = .ok 200 r)
    ∧ (r.status = .DRAFT →
        getReflectionById store (some r.authorId) r.id = .ok 200 r
        ∧ getReflectionById store none r.id = .err 404 "Not found"
        ∧ (∀ uid, uid ≠ r.authorId → getReflectionById store (some uid) r.id = .err 404 "Not found")) := by
  constructor
  · intro hpub user
    cases user with
    | none => simp [getReflectionById, hfind, hpub]
    | some uid => simp [getReflectionById, hfind, hpub]
  · intro hdraft
    refine ⟨?_, ?_, ?_⟩
    · simp [getReflectionById, hfind, hdraft]
    · simp [getReflectionById, hfind, hdraft]
    · intro uid huid
      simp [getReflectionById, hfind, hdraft, huid]

/-- Concrete instance of the C1 theorem: the published demo reflection is
served to an arbitrary authenticated stranger. -/
theorem c1_get_visibility_witness :
    findUnique [rPubDemo] rPubDemo.id = some rPubDemo
    ∧ rPubDemo.status = .PUBLISHED
    ∧ getReflectionById [rPubDemo] (some "mallory") rPubDemo.id = .ok 200 rPubDemo :=
  ⟨by decide, by decide,
    (c1_get_visibility [rPubDemo] rPubDemo (by decide)).1 (by decide) (some "mallory")⟩

/-- Claim C2: for each mutating handler (update, delete, publish), an
anonymous caller always gets 401 with the store unchanged; when the
reflection does not exist the caller gets 404; when it exists but the
persisted `authorId` differs from the authenticated id the caller gets 403
(distinct from the 404 of the absent case), with the store unchanged; and
when the persisted `authorId` matches, the operation proceeds (delete and
publish succeed with 200, update is never rejected for authorization).  The
ownership check compares the `authorId` loaded from the store — the patch
type carries no author field, mirroring the request schema. -/
theorem c2_mutation_authorization (store : List Reflection) (id : String)
    (p : ReflectionPatch) (now : Nat) :
    (updateReflection store none id p = (store, .err 401 "Unauthorized")
      ∧ deleteReflection store none id = (store, .err 401 "Unauthorized")
      ∧ publishReflection store none id now = (store, .err 401 "Unauthorized"))
    ∧ (∀ uid, findUnique store id = none →
        updateReflection store (some uid) id p = (store, .err 404 "Reflection not found")
        ∧ deleteReflection store (some uid) id = (store, .err 404 "Reflection not found")
        ∧ publishReflection store (some uid) id now = (store, .err 404 "Reflection not found"))
    ∧ (∀ uid r, findUnique store id = some r → r.authorId ≠ uid →
        updateReflection store (some uid) id p = (store, .err 403 "Unauthorized")
        ∧ deleteReflection store (some uid) id = (store, .err 403 "Unauthorized")
        ∧ publishReflection store (some uid) id now = (store, .err 403 "Unauthorized"))
    ∧ (∀ uid r, findUnique store id = some r → r.authorId = uid →
        ((updateReflection store (some uid) id p).2.code = 200
          ∨ (updateReflection store (some uid) id p).2.code = 400)
        ∧ deleteReflection store (some uid) id
            = (store.filter (fun x => x.id != id), .ok 200 ())
        ∧ publishReflection store (some uid) id now
            = (mapUpdate Reflection.id id
                 (fun x => { x with status := .PUBLISHED, publishDate := some now }) store,
               .ok 200 { r with status := .PUBLISHED, publishDate := some now })) := by
  refine ⟨⟨rfl, rfl, rfl⟩, ?_, ?_, ?_⟩
  · intro uid hnone
    exact ⟨by simp [updateReflection, hnone], by simp [deleteReflection, hnone],
           by simp [publishReflection, hnone]⟩
  · intro uid r hfind hne
    refine ⟨?_, ?_, ?_⟩
    · simp [updateReflection, hfind, hne]
    · simp [deleteReflection, hfind, hne]
    · simp [publishReflection, hfind, hne]
  · intro uid r hfind hown
    refine ⟨?_, ?_, ?_⟩
    · simp only [updateReflection, hfind, hown]
      by_cases hv : patchValid p
      · simp only [hv]
        by_cases hs : (match p.slug with
          | some s => store.any (fun x => x.slug == s && x.id != id)
          | none => false)
        · simp [hs, ApiResponse.code]
        · simp [hs, ApiResponse.code]
      · simp [hv, ApiResponse.code]
    · simp [deleteReflection, hfind, hown]
    · simp [publishReflection, hfind, hown]

/-- Concrete instance of the C2 theorem: `"bob"` trying to update
`"alice"`'s reflection gets 403 and the store is unchanged. -/
theorem c2_mutation_authorization_witness :
    findUnique demoStore2 "r2" = some rPubDemo
    ∧ rPubDemo.authorId ≠ "bob"
    ∧ updateReflection demoStore2 (some "bob") "r2" {} = (demoStore2, .err 403 "Unauthorized") := by
  refine ⟨by decide, by decide, ?_⟩
  exact ((c2_mutation_authorization demoStore2 "r2" {} 0).2.2.1 "bob" rPubDemo
    (by decide) (by decide)).1

/-- Claim C3: over a store in which no reflection carries the sentinel
author id `"none"` (author ids are recorded from session user ids at
creation), the list handler is fail-closed: every reflection an anonymous
caller receives is PUBLISHED whatever status filter was requested; an
anonymous DRAFT request returns the empty list for every requested
`authorId`; and an authenticated caller requesting DRAFT with an `authorId`
different from their own id receives the empty list — an empty 200 result,
never an error. -/
theorem c3_listing_fail_closed (store : List Reflection)
    (hnone : ∀ r ∈ store, r.authorId ≠ "none") :
    (∀ status authorId r, r ∈ listReflections store status authorId none →
        r.status = .PUBLISHED)
    ∧ (∀ authorId, listReflections store (some "DRAFT") authorId none = [])
    ∧ (∀ uid x, uid ≠ x →
        listReflections store (some "DRAFT") (some x) (some uid) = []) := by
  refine ⟨?_, ?_, ?_⟩
  · intro status authorId r hr
    simp only [listReflections, List.mem_filter] at hr
    obtain ⟨-, hm⟩ := hr
    simp only [matchesWhere, buildWhere, Bool.and_eq_true] at hm
    obtain ⟨h1, -⟩ := hm
    cases hs : r.status with
    | PUBLISHED => rfl
    | DRAFT => simp [statusToString, hs] at h1
  · intro authorId
    simp only [listReflections, List.filter_eq_nil_iff]
    intro r hr
    simp only [matchesWhere, buildWhere, Bool.and_eq_true, not_and]
    intro _
    simp [hnone r hr]
  · intro uid x hne
    simp only [listReflections, List.filter_eq_nil_iff]
    intro r hr
    simp only [matchesWhere, buildWhere, Bool.and_eq_true, not_and]
    intro _
    simp [hne, hnone r hr]

/-- Concrete instance of the C3 theorem: `"bob"` requesting `"alice"`'s
drafts gets an empty result although a draft by `"alice"` is stored. -/
theorem c3_listing_fail_closed_witness :
    (∀ r ∈ demoStore, r.authorId ≠ "none")
    ∧ ("bob" : String) ≠ "alice"
    ∧ listReflections demoStore (some "DRAFT") (some "alice") (some "bob") = [] := by
  refine ⟨by decide, by decide, ?_⟩
  exact (c3_listing_fail_closed demoStore (by decide)).2.2 "bob" "alice" (by decide)

/-- Claim C4: publishing an owned reflection returns 200 with the record's
status set to PUBLISHED and `publishDate` stamped to the current time,
overwriting the prior value; publishing again at a later time re-stamps
`publishDate` to the new time, so it changes on both invocations, and the
resulting `publishDate` is non-null in every case. -/
theorem c4_publish_restamps (store : List Reflection) (r : Reflection) (uid : String)
    (t1 t2 : Nat) (hfind : findUnique store r.id = some r) (hown : r.authorId = uid)
    (hprev : r.publishDate ≠ some t1) (hne : t1 ≠ t2) :
    (publishReflection store (some uid) r.id t1).2
        = .ok 200 { r with status := .PUBLISHED, publishDate := some t1 }
    ∧ (publishReflection (publishReflection store (some uid) r.id t1).1 (some uid) r.id t2).2
        = .ok 200 { r with status := .PUBLISHED, publishDate := some t2 }
    ∧ ({ r with status := .PUBLISHED, publishDate := some t1 } : Reflection).publishDate
        ≠ r.publishDate
    ∧ ({ r with status := .PUBLISHED, publishDate := some t2 } : Reflection).publishDate
        ≠ ({ r with status := .PUBLISHED, publishDate := some t1 } : Reflection).publishDate
    ∧ (∀ t, ({ r with status := .PUBLISHED, publishDate := some t } : Reflection).publishDate ≠ none) := by
  have hfindBy : findBy Reflection.id store r.id = some r := hfind
  have hbne : (r.authorId != uid) = false := by simp [hown]
  have hmap := findBy_mapUpdate Reflection.id r.id
    (fun x => { x with status := .PUBLISHED, publishDate := some t1 }) (fun x => rfl) store
  have h1 : publishReflection store (some uid) r.id t1
      = (mapUpdate Reflection.id r.id
           (fun x => { x with status := .PUBLISHED, publishDate := some t1 }) store,
         .ok 200 { r with status := .PUBLISHED, publishDate := some t1 }) := by
    simp only [publishReflection, findUnique]
    rw [hfindBy]
    simp [hbne]
  have hfind1 : findBy Reflection.id
      (mapUpdate Reflection.id r.id
        (fun x => { x with status := .PUBLISHED, publishDate := some t1 }) store) r.id
      = some { r with status := .PUBLISHED, publishDate := some t1 } := by
    rw [hmap, hfindBy]
    rfl
  refine ⟨?_, ?_, ?_, ?_, ?_⟩
  · rw [h1]
  · rw [h1]
    simp only [publishReflection, findUnique]
    rw [hfind1]
    simp [hbne]
  · simpa using fun h => hprev h.symm
  · simpa using fun h => hne h.symm
  · intro t
    simp

/-- Concrete instance of the C4 theorem: `"alice"` publishes her draft at
time 3, then again at time 9; each call re-stamps the date. -/
theorem c4_publish_restamps_witness :
    findUnique [rDraftDemo] rDraftDemo.id = some rDraftDemo
    ∧ rDraftDemo.authorId = "alice"
    ∧ rDraftDemo.publishDate ≠ some 3
    ∧ (3 : Nat) ≠ 9
    ∧ (publishReflection [rDraftDemo] (some "alice") rDraftDemo.id 3).2
        = .ok 200 { rDraftDemo with status := .PUBLISHED, publishDate := some 3 }
    ∧ (publishReflection (publishReflection [rDraftDemo] (some "alice") rDraftDemo.id 3).1
          (some "alice") rDraftDemo.id 9).2
        = .ok 200 { rDraftDemo with status := .PUBLISHED, publishDate := some 9 } := by
  have h := c4_publish_restamps [rDraftDemo] rDraftDemo "alice" 3 9
    (by decide) (by decide) (by decide) (by decide)
  exact ⟨by decide, by decide, by decide, by decide, h.1, h.2.1⟩

/-- Claim C5, the code violating the claimed invariant: a create request
that supplies `status = PUBLISHED` and no `publishDate` succeeds with 201
and inserts a row whose status is PUBLISHED while its `publishDate` is null
— the create handler never auto-stamps the date, so the invariant
"PUBLISHED implies `publishDate` non-null" does not survive creation. -/
theorem c5_create_published_without_date :
    createReflection [] (some "alice")
        { title := "a", content := "b", status := .PUBLISHED } "r1"
      = ([c5Reflection], .ok 201 c5Reflection)
    ∧ c5Reflection.status = .PUBLISHED
    ∧ c5Reflection.publishDate = none := by
  decide

/-- Claim C6, counterexample to the claim as stated: the update schema is
the full create schema made optional, so an update payload may carry
`status`; updating `"alice"`'s published reflection with a payload whose
status field is DRAFT transitions the stored row back to DRAFT. -/
theorem c6_update_payload_reverts_status :
    rPubDemo.status = .PUBLISHED
    ∧ (findUnique (updateReflection [rPubDemo] (some "alice") "r2"
          { status := some .DRAFT }).1 "r2").map Reflection.status
        = some .DRAFT := by
  decide

/-- Claim C6 (amended): a PUBLISHED reflection is never reverted to DRAFT by
an update whose payload omits the status field, nor by publish — after
either operation, by any caller, the stored row is still PUBLISHED; only an
update payload that explicitly carries `status = DRAFT` can revert it. -/
theorem c6_status_preserved_without_status_field (store : List Reflection) (r : Reflection)
    (user : Option String) (p : ReflectionPatch) (t : Nat)
    (hfind : findUnique store r.id = some r) (hpub : r.status = .PUBLISHED)
    (hstat : p.status = none) :
    (findUnique (updateReflection store user r.id p).1 r.id).map Reflection.status
        = some .PUBLISHED
    ∧ (findUnique (publishReflection store user r.id t).1 r.id).map Reflection.status
        = some .PUBLISHED := by
  have hfindBy : findBy Reflection.id store r.id = some r := hfind
  constructor
  · cases user with
    | none =>
      simp only [updateReflection, findUnique]
      rw [hfindBy]
      simp [hpub]
    | some uid =>
      simp only [updateReflection, findUnique]
      rw [hfindBy]
      by_cases hb : (r.authorId != uid) = true
      · simp [hb, hfindBy, hpub]
      · have hb' : (r.authorId != uid) = false := by simpa using hb
        by_cases hv : patchValid p = true
        · by_cases hs : (match p.slug with
            | some s => store.any (fun x => x.slug == s && x.id != r.id)
            | none => false) = true
          · simp [hb', hv, hs, hfindBy, hpub]
          · have hs' : (match p.slug with
              | some s => store.any (fun x => x.slug == s && x.id != r.id)
              | none => false) = false := by simpa using hs
            simp only [hb', hv, hs', Bool.not_true, Bool.false_eq_true, if_false]
            rw [findBy_mapUpdate Reflection.id r.id (fun x => applyPatch x p)
              (fun x => rfl) store, hfindBy]
            simp [applyPatch, hstat, hpub]
        · have hv' : patchValid p = false := by simpa using hv
          simp [hb', hv', hfindBy, hpub]
  · cases user with
    | none =>
      simp only [publishReflection, findUnique]
      rw [hfindBy]
      simp [hpub]
    | some uid =>
      simp only [publishReflection, findUnique]
      rw [hfindBy]
      by_cases hb : (r.authorId != uid) = true
      · simp [hb, hfindBy, hpub]
      · have hb' : (r.authorId != uid) = false := by simpa using hb
        simp only [hb', Bool.false_eq_true, if_false]
        rw [findBy_mapUpdate Reflection.id r.id
          (fun x => { x with status := .PUBLISHED, publishDate := some t })
          (fun x => rfl) store, hfindBy]
        simp

/-- Concrete instance of the amended C6 theorem: an update of the published
demo reflection with an empty payload leaves it PUBLISHED. -/
theorem c6_status_preserved_witness :
    findUnique [rPubDemo] rPubDemo.id = some rPubDemo
    ∧ rPubDemo.status = .PUBLISHED
    ∧ (({} : ReflectionPatch)).status = none
    ∧ (findUnique (updateReflection [rPubDemo] (some "bob") rPubDemo.id {}).1 rPubDemo.id).map
        Reflection.status = some .PUBLISHED := by
  have h := c6_status_preserved_without_status_field [rPubDemo] rPubDemo (some "bob") {} 0
    (by decide) (by decide) (by decide)
  exact ⟨by decide, by decide, by decide, h.1⟩

/-- Claim C7: two create requests with the same non-empty title and no
explicit slug derive the same slug; the first succeeds with 201 and appends
its row, the second fails with 400 against the unique-slug constraint and
leaves the store — including the first reflection — unchanged. -/
theorem c7_duplicate_title_second_create_fails (store : List Reflection)
    (uid1 uid2 t c1 c2 id1 id2 : String)
    (ht : t.length ≠ 0) (hc1 : c1.length ≠ 0) (hc2 : c2.length ≠ 0)
    (hid : ∀ r ∈ store, r.id ≠ id1)
    (hslug : ∀ r ∈ store, r.slug ≠ createSlug t) :
    createReflection store (some uid1) { title := t, content := c1 } id1
      = (store ++ [createdDraft t c1 uid1 id1], .ok 201 (createdDraft t c1 uid1 id1))
    ∧ createReflection
        (createReflection store (some uid1) { title := t, content := c1 } id1).1
        (some uid2) { title := t, content := c2 } id2
      = ((createReflection store (some uid1) { title := t, content := c1 } id1).1,
         .err 400 "Failed to create reflection") := by
  have hvalid1 : createInputValid { title := t, content := c1 } = true := by
    simp [createInputValid, ht, hc1]
  have hvalid2 : createInputValid { title := t, content := c2 } = true := by
    simp [createInputValid, ht, hc2]
  have hida : store.any (fun r => r.id == id1) = false := by
    simp only [List.any_eq_false]
    intro r hr
    simp [hid r hr]
  have hsla : store.any (fun r => r.slug == createSlug t) = false := by
    simp only [List.any_eq_false]
    intro r hr
    simp [hslug r hr]
  have h1 : createReflection store (some uid1) { title := t, content := c1 } id1
      = (store ++ [createdDraft t c1 uid1 id1], .ok 201 (createdDraft t c1 uid1 id1)) := by
    simp [createReflection, hvalid1, hida, hsla, createdDraft, Option.getD]
  refine ⟨h1, ?_⟩
  rw [h1]
  have hsla2 : (store ++ [createdDraft t c1 uid1 id1]).any
      (fun r => r.slug == createSlug t) = true := by
    simp [createdDraft]
  simp [createReflection, hvalid2, hsla2]

/-- Concrete instance of the C7 theorem: two creates titled
`"Hello World"` with no slug — the second returns 400 and changes nothing. -/
theorem c7_duplicate_title_second_create_fails_witness :
    ("Hello World".length ≠ 0)
    ∧ createReflection
        (createReflection [] (some "alice") { title := "Hello World", content := "x" } "a1").1
        (some "bob") { title := "Hello World", content := "y" } "a2"
      = ((createReflection [] (some "alice") { title := "Hello World", content := "x" } "a1").1,
         .err 400 "Failed to create reflection") := by
  have h := c7_duplicate_title_second_create_fails [] "alice" "bob" "Hello World" "x" "y"
    "a1" "a2" (by decide) (by decide) (by decide) (by decide) (by decide)
  exact ⟨by decide, h.2⟩

/-- Claim C8: in the album create handler, every Image row that reaches the
database carries a `url` returned by that payload's completed, successful
storage upload (the row is built only from the upload's returned locator,
so the database never holds a url of an upload that did not complete), and
if any individual upload fails the whole request is answered with 400. -/
theorem c8_album_create_upload_before_persist (upload : String → Except String String)
    (uid name albumId : String) (items : List (ImagePayload × String))
    (hname : name.length ≠ 0) (hne : items ≠ []) :
    (∀ img ∈ (createAlbum upload (some uid) name items albumId).imagesInserted,
       ∃ it ∈ items, upload (imagePath albumId it.2 it.1.name) = .ok img.url)
    ∧ ((∃ it ∈ items, isErr (upload (imagePath albumId it.2 it.1.name)) = true) →
       (createAlbum upload (some uid) name items albumId).code = 400) := by
  have hn : (name.length == 0) = false := by simpa using hname
  have hi : items.isEmpty = false := by
    cases items with
    | nil => exact absurd rfl hne
    | cons a l => rfl
  constructor
  · intro img hmem
    simp only [createAlbum, hn, Bool.false_eq_true, if_false, hi] at hmem
    cases hc : createAlbumImages upload albumId uid items with
    | error e =>
      rw [hc] at hmem
      simp only at hmem
      obtain ⟨it, hit, hok⟩ := mem_persistedImages upload albumId uid items img hmem
      exact ⟨it, hit, processImage_ok_url upload albumId uid it.2 it.1 img hok⟩
    | ok imgs =>
      rw [hc] at hmem
      simp only at hmem
      obtain ⟨it, hit, hok⟩ := mem_createAlbumImages_ok upload albumId uid items imgs hc img hmem
      exact ⟨it, hit, processImage_ok_url upload albumId uid it.2 it.1 img hok⟩
  · intro hfail
    obtain ⟨e, he⟩ := createAlbumImages_error_of_failed_upload upload albumId uid items hfail
    simp [createAlbum, hn, hi, he]

/-- Concrete instance of the C8 theorem: with two images whose second
upload fails, the request is answered with 400. -/
theorem c8_album_create_upload_before_persist_witness :
    ("n".length ≠ 0)
    ∧ demoItems ≠ []
    ∧ (∃ it ∈ demoItems, isErr (demoUpload (imagePath "al1" it.2 it.1.name)) = true)
    ∧ (createAlbum demoUpload (some "alice") "n" demoItems "al1").code = 400 := by
  refine ⟨by decide, by decide, by decide, ?_⟩
  exact (c8_album_create_upload_before_persist demoUpload "alice" "n" "al1" demoItems
    (by decide) (by decide)).2 (by decide)

/-- Claim C9: when the owner deletes an album whose images all have a
non-empty final URL segment (as every URL written by the upload path has),
the database rows are deleted only after every owned image's storage object
was removed successfully — if the delete ran the database deletion, each
image's removal returned success and its path was recorded — and if any
storage removal fails the request is answered with 400 and the album's
database rows are not deleted. -/
theorem c9_album_delete_storage_first (remove : String → Except String Unit)
    (albums : List AlbumRecord) (images : List ImageRecord) (uid id : String)
    (album : AlbumRecord)
    (hfind : findBy AlbumRecord.id albums id = some album)
    (hown : album.uploadedById = uid)
    (hseg : ∀ img ∈ images.filter (fun i => i.albumId == id), lastSegment img.url ≠ "") :
    ((deleteAlbum remove albums images (some uid) id).dbDeleted = true →
       ∀ img ∈ images.filter (fun i => i.albumId == id),
         remove (id ++ "/" ++ lastSegment img.url) = .ok ()
         ∧ (id ++ "/" ++ lastSegment img.url)
             ∈ (deleteAlbum remove albums images (some uid) id).removedPaths)
    ∧ ((∃ img ∈ images.filter (fun i => i.albumId == id),
          isErr (remove (id ++ "/" ++ lastSegment img.url)) = true) →
       (deleteAlbum remove albums images (some uid) id).code = 400
       ∧ (deleteAlbum remove albums images (some uid) id).dbDeleted = false) := by
  have hbne : (album.uploadedById != uid) = false := by simp [hown]
  have hd : deleteAlbum remove albums images (some uid) id
      = (if (removeLoop remove id (images.filter (fun i => i.albumId == id))).2 then
          { code := 200,
            removedPaths := (removeLoop remove id (images.filter (fun i => i.albumId == id))).1,
            dbDeleted := true }
         else
          { code := 400,
            removedPaths := (removeLoop remove id (images.filter (fun i => i.albumId == id))).1,
            dbDeleted := false }) := by
    simp only [deleteAlbum]
    rw [hfind]
    simp [hbne]
  constructor
  · intro hdb img hmem
    rw [hd] at hdb ⊢
    by_cases hloop : (removeLoop remove id (images.filter (fun i => i.albumId == id))).2 = true
    · simp only [hloop, if_true]
      exact removeLoop_complete_ok remove id _ hseg hloop img hmem
    · rw [if_neg (by simpa using hloop)] at hdb
      exact absurd hdb (by simp)
  · intro hfail
    have hloop := removeLoop_fails_of_failed_remove remove id _ hseg hfail
    rw [hd]
    simp [hloop]

/-- Concrete instance of the C9 theorem: storage is down, so the owner's
delete of the demo album returns 400 and the database rows survive. -/
theorem c9_album_delete_storage_first_witness :
    findBy AlbumRecord.id demoAlbums "al1" = some { id := "al1", name := "n", uploadedById := "alice" }
    ∧ (∀ img ∈ demoImages.filter (fun i => i.albumId == "al1"), lastSegment img.url ≠ "")
    ∧ (∃ img ∈ demoImages.filter (fun i => i.albumId == "al1"),
         isErr (demoRemove ("al1" ++ "/" ++ lastSegment img.url)) = true)
    ∧ (deleteAlbum demoRemove demoAlbums demoImages (some "alice") "al1").code = 400
    ∧ (deleteAlbum demoRemove demoAlbums demoImages (some "alice") "al1").dbDeleted = false := by
  refine ⟨by decide, by decide, by decide, ?_⟩
  exact (c9_album_delete_storage_first demoRemove demoAlbums demoImages "alice" "al1"
    { id := "al1", name := "n", uploadedById := "alice" } (by decide) (by decide) (by decide)).2
    (by decide)

/-- Claim C10: over a store in which no reflection carries the sentinel
author id `"none"`, an authenticated caller who requests `status = DRAFT`
without supplying an `authorId` query parameter receives the empty list —
their own drafts included — because the forced-empty filter applies
whenever the supplied `authorId` does not equal the caller's id, which
holds vacuously when no `authorId` is supplied. -/
theorem c10_draft_listing_without_author (store : List Reflection) (uid : String)
    (hnone : ∀ r ∈ store, r.authorId ≠ "none") :
    listReflections store (some "DRAFT") none (some uid) = [] := by
  simp only [listReflections, List.filter_eq_nil_iff]
  intro r hr
  simp only [matchesWhere, buildWhere, Bool.and_eq_true, not_and]
  intro _
  simp [hnone r hr]

/-- Concrete instance of the C10 theorem: `"alice"` lists drafts without an
author filter and does not even receive her own stored draft. -/
theorem c10_draft_listing_without_author_witness :
    (∀ r ∈ [rDraftDemo], r.authorId ≠ "none")
    ∧ listReflections [rDraftDemo] (some "DRAFT") none (some "alice") = [] :=
  ⟨by decide, c10_draft_listing_without_author [rDraftDemo] "alice" (by decide)⟩

end GakCms
